import Mathlib

/-!
Shallow embedding of the Matrix Synapse admin Telegram bot
(`src/bot-secure.js`, with the near-duplicate variants `src/unnamed/part_000`
and `src/unnamed/part_001`), together with theorems settling the frozen
claims about its specification.

Modelling conventions, used throughout:
* JS strings are Lean `String`s (a structure over `List Char`); the JS
  truthiness test on an optional string field (`user.username && ...`,
  `user.displayname && ...`) is folded into `Option String`, where `none`
  stands for an absent-or-falsy (empty) field.
* `strToLower` embeds JS `toLowerCase` (both map characters to lower
  case; all configured tokens and user ids in scope are ASCII).
* Remote HTTP calls are reified as `RemoteCall` values listed by each
  operation, and the directory behind `GET /_synapse/admin/v2/users` is a
  parameter `dir : List Account`; the server answers a `{from, limit}`
  query with `(dir.drop from).take limit`.
-/

namespace SynapseBot

/- ### JS string primitives -/

/-- `pat.isPrefixOf`-based substring test: embeds JS `String.includes`
(`s.includes pat`), searching `pat` at every suffix of `s`. -/
def listIncludes (pat : List Char) : List Char → Bool
  | [] => pat.isEmpty
  | c :: rest => pat.isPrefixOf (c :: rest) || listIncludes pat rest

/-- JS `s.includes(pat)`. -/
def strIncludes (s pat : String) : Bool :=
  listIncludes pat.data s.data

/-- JS `s.startsWith(pre)` (the source's `data.startsWith('...')`). -/
def strStarts (pre s : String) : Bool :=
  pre.data.isPrefixOf s.data

/-- JS `s.substring(n)` for an ASCII prefix length `n`. -/
def strDrop (s : String) (n : Nat) : String :=
  ⟨s.data.drop n⟩

/-- JS `toLowerCase`, embedded as per-character lower-casing over the
string's characters (the configured handles and Matrix ids in scope are
ASCII, where this agrees with JS). -/
def strToLower (s : String) : String :=
  ⟨s.data.map Char.toLower⟩

/-- JS `parseInt` restricted to the non-negative decimal tokens the bot
generates (`users_page_<digits>`): parses the longest leading digit run,
`none` when there is none (`parseInt`'s `NaN`).  Sign and radix prefixes
never occur in the bot's callback tokens and are not modelled. -/
def parseIntJS (s : String) : Option Nat :=
  let ds := s.data.takeWhile Char.isDigit
  if ds.isEmpty then none
  else some (ds.foldl (fun n c => 10 * n + (c.toNat - 48)) 0)

/-- JS `Array.prototype.slice(s, e)` for `0 ≤ s ≤ e` (clamped at the
length); an empty result when `e ≤ s`, as in JS. -/
def jsSlice (l : List α) (s e : Nat) : List α :=
  (l.drop s).take (e - s)

/- ### Authorization gate (`isAuthorized`, src/bot-secure.js:23-41) -/

/-- A Telegram actor as seen by the gate: numeric `user.id` plus the
optional `user.username` handle. -/
structure TgUser where
  id : Int
  username : Option String
deriving DecidableEq

/-- The static allow-list: `AUTHORIZED_USERS` (numeric ids) and
`AUTHORIZED_USERNAMES` (handles, lower-cased at configuration parse,
src/bot-secure.js:14-17). -/
structure AllowList where
  ids : List Int
  handles : List String
deriving DecidableEq

/-- `isAuthorized(user)` of src/bot-secure.js:23-41 (identical in
part_000:23-41 and part_001): deny when both configured lists are empty;
otherwise allow on a listed id, else on a present handle whose lower-cased
form is listed. -/
def isAuthorized (allow : AllowList) (user : TgUser) : Bool :=
  if allow.ids.isEmpty && allow.handles.isEmpty then
    false
  else if allow.ids.contains user.id then
    true
  else
    match user.username with
    | some h => allow.handles.contains (strToLower h)
    | none => false

/- ### Directory accounts and the search filter
(`MatrixClient.searchUsers`, src/bot-secure.js:143-181) -/

/-- A directory account as consumed by the bot: Matrix `name` (the user
id), optional `displayname`, `deactivated` and `admin` flags. -/
structure Account where
  name : String
  displayname : Option String
  deactivated : Bool
  admin : Bool
deriving DecidableEq

/-- The filter predicate of `searchUsers` (src/bot-secure.js:158-164):
id contains the lower-cased term, or a present display name contains it,
or the id equals the term exactly. -/
def searchMatches (searchTerm : String) (user : Account) : Bool :=
  let searchLower := strToLower searchTerm
  strIncludes (strToLower user.name) searchLower
    || (match user.displayname with
        | some d => strIncludes (strToLower d) searchLower
        | none => false)
    || user.name == searchTerm

/-- `filteredUsers` of `searchUsers` (src/bot-secure.js:158-164). -/
def searchFilter (allUsers : List Account) (searchTerm : String) : List Account :=
  allUsers.filter (searchMatches searchTerm)

/- ### Pagination (`createUserSelectionKeyboard`, src/bot-secure.js:213-244) -/

/-- The observable content of a paged selection keyboard: the page's user
rows plus which navigation controls are rendered. -/
structure Keyboard where
  pageUsers : List Account
  hasPrev : Bool
  hasNext : Bool
deriving DecidableEq

/-- Pagination of `createUserSelectionKeyboard` (src/bot-secure.js:213-244;
the identical lines open `createSearchResultKeyboard` in part_000:248-294):
`startIndex = page * usersPerPage`, `endIndex = min (startIndex +
usersPerPage) users.length`, the page is `users.slice(startIndex,
endIndex)`; a Previous button is pushed iff `page > 0`, a Next button iff
`endIndex < users.length`. -/
def createUserSelectionKeyboard (users : List Account) (page usersPerPage : Nat) :
    Keyboard :=
  let startIndex := page * usersPerPage
  let endIndex := min (startIndex + usersPerPage) users.length
  { pageUsers := jsSlice users startIndex endIndex
    hasPrev := decide (0 < page)
    hasNext := decide (endIndex < users.length) }

/- ### Directory client (`MatrixClient`, src/bot-secure.js:103-195) -/

/-- The `{from, limit}` query parameters of a users-listing request. -/
structure UsersQuery where
  fromIdx : Nat
  limit : Nat
deriving DecidableEq

/-- The body of `POST /_synapse/admin/v1/deactivate/<id>`
(src/bot-secure.js:129-141): the target id and the `erase` flag. -/
structure DeactivateRequest where
  targetId : String
  erase : Bool
deriving DecidableEq

/-- A remote admin-API request issued by the bot. -/
inductive RemoteCall where
  | getUsersReq (fromIdx limit : Nat)
  | getUserInfoReq (id : String)
  | deactivateReq (r : DeactivateRequest)
deriving DecidableEq

/-- Semantics of the remote `GET /_synapse/admin/v2/users` endpoint over a
directory snapshot: the page of `limit` accounts starting at `from`. -/
def fetchUsers (dir : List Account) (q : UsersQuery) : List Account :=
  (dir.drop q.fromIdx).take q.limit

/-- Result of `MatrixClient.searchUsers`, with the remote requests it
issued reified. -/
structure SearchOutcome where
  users : List Account
  total : Nat
  calls : List RemoteCall
deriving DecidableEq

/-- `MatrixClient.searchUsers(searchTerm, from, limit)`
(src/bot-secure.js:143-181): fetches a fixed `{from: 0, limit: 1000}`
superset, filters it locally, and paginates the filtered list with
`startIndex = from`, `endIndex = min (from + limit) filtered.length`. -/
def searchUsers (dir : List Account) (searchTerm : String)
    (fromIdx limit : Nat) : SearchOutcome :=
  let allUsers := fetchUsers dir ⟨0, 1000⟩
  let filteredUsers := searchFilter allUsers searchTerm
  let startIndex := fromIdx
  let endIndex := min (startIndex + limit) filteredUsers.length
  { users := jsSlice filteredUsers startIndex endIndex
    total := filteredUsers.length
    calls := [RemoteCall.getUsersReq 0 1000] }

/- ### Deactivation candidate filters -/

/-- The `deactivate_menu` candidate filter of src/bot-secure.js:451:
`activeUsers = users.filter(user => !user.deactivated)` — only
deactivated accounts are excluded. -/
def activeUsersFilter (users : List Account) : List Account :=
  users.filter (fun u => !u.deactivated)

/-- The `deactivate_menu` candidate filter of part_000:702 (and
part_001): `users.filter(user => !user.deactivated && !user.admin)` —
deactivated accounts and admins are excluded. -/
def deactivatableUsersFilter (users : List Account) : List Account :=
  users.filter (fun u => !u.deactivated && !u.admin)

/- ### The callback-query controller (src/bot-secure.js:333-571) -/

/-- `userStates` entry of a chat (src/bot-secure.js:20): either
`{waiting_for_search: true}` or `{users, page}`.  The stored `page` field
is written but never read by src/bot-secure.js, so the `parseInt` `NaN`
case stores `0` in the model (the stored value is unobservable). -/
inductive SessState where
  | waitingForSearch : SessState
  | deactList (users : List Account) (page : Nat) : SessState
deriving DecidableEq

/-- Observable outcome of one callback-query dispatch: the written-back
session, the remote requests issued, the callback tokens of the buttons
offered by the final rendered keyboard, and how many message-edit render
operations were performed (`editMessageText` / `editMessageReplyMarkup`).
The unconditional `answerCallbackQuery` acknowledgement (which carries no
text) is not counted as a render. -/
structure StepResult where
  session : Option SessState
  calls : List RemoteCall
  buttons : List String
  edits : Nat
  /-- The accounts enumerated by the rendered message text (the
  `get_users` listing and the `deactivate_menu` candidate list); `[]` for
  branches that render no account list. -/
  shown : List Account
deriving DecidableEq

/-- Buttons of the main menu keyboard (src/bot-secure.js:200-211). -/
def mainMenuButtons : List String :=
  ["get_users", "search_users", "deactivate_menu", "show_my_info"]

/-- Callback tokens of `createUserSelectionKeyboard`
(src/bot-secure.js:213-244): `deactivate_<name>` per page row,
`users_page_<page∓1>` navigation, and the back button. -/
def selectionButtons (users : List Account) (page : Nat) : List String :=
  let k := createUserSelectionKeyboard users page 10
  (k.pageUsers.map (fun u => "deactivate_" ++ u.name))
    ++ (if k.hasPrev then ["users_page_" ++ toString (page - 1)] else [])
    ++ (if k.hasNext then ["users_page_" ++ toString (page + 1)] else [])
    ++ ["back_to_menu"]

/-- The `deactivate_menu` branch (src/bot-secure.js:444-471): fetch with
the `getUsers()` defaults `{from: 0, limit: 100}`, filter with
`activeUsersFilter`; when nothing remains, render the notice and leave the
session untouched (the early return precedes `userStates.set`); otherwise
store `{users: activeUsers, page: 0}` and render the selection keyboard at
page 0. -/
def deactivateMenuStep (dir : List Account) (st : Option SessState) :
    StepResult :=
  let activeUsers := activeUsersFilter (fetchUsers dir ⟨0, 100⟩)
  if activeUsers.isEmpty then
    { session := st, calls := [RemoteCall.getUsersReq 0 100],
      buttons := ["back_to_menu"], edits := 2, shown := [] }
  else
    { session := some (.deactList activeUsers 0),
      calls := [RemoteCall.getUsersReq 0 100],
      buttons := selectionButtons activeUsers 0, edits := 2,
      shown := activeUsers }

/-- The `callback_query` dispatcher of src/bot-secure.js:333-571, branch
by branch in source order (the second, unreachable `search_users` test of
line 429 included).  `dir` is the remote directory snapshot; the two
fetching branches call `matrixClient.getUsers()` whose JS default
arguments are `from = 0, limit = 100` (src/bot-secure.js:113).  The
`confirm_deactivate_` branch renders two edits and offers the same two
buttons whether the remote call succeeds or fails
(src/bot-secure.js:504-547). -/
def handleCallback (dir : List Account) (data : String)
    (st : Option SessState) : StepResult :=
  if data = "show_my_info" then
    { session := st, calls := [], buttons := ["back_to_menu"], edits := 1,
      shown := [] }
  else if data = "search_users" then
    { session := some .waitingForSearch, calls := [],
      buttons := ["back_to_menu"], edits := 1, shown := [] }
  else if data = "get_users" then
    -- fetch, then render either the listing or the empty notice
    { session := st, calls := [RemoteCall.getUsersReq 0 100],
      buttons := ["back_to_menu"], edits := 2, shown := fetchUsers dir ⟨0, 100⟩ }
  else if data = "search_users" then
    { session := some .waitingForSearch, calls := [],
      buttons := ["back_to_menu"], edits := 1, shown := [] }
  else if data = "deactivate_menu" then
    deactivateMenuStep dir st
  else if strStarts "users_page_" data then
    match st with
    | some (.deactList users _) =>
      match parseIntJS (strDrop data 11) with
      | some p =>
        { session := some (.deactList users p), calls := [],
          buttons := selectionButtons users p, edits := 1, shown := [] }
      | none =>
        -- parseInt NaN: JS renders slice(NaN, NaN) = [] with no nav row
        { session := some (.deactList users 0), calls := [],
          buttons := ["back_to_menu"], edits := 1, shown := [] }
    | _ =>
      { session := st, calls := [], buttons := [], edits := 0, shown := [] }
  else if strStarts "deactivate_" data then
    let userId := strDrop data 11
    { session := st, calls := [],
      buttons := ["confirm_deactivate_" ++ userId, "deactivate_menu"],
      edits := 1, shown := [] }
  else if strStarts "confirm_deactivate_" data then
    let userId := strDrop data 19
    { session := st, calls := [RemoteCall.deactivateReq ⟨userId, false⟩],
      buttons := ["deactivate_menu", "back_to_menu"], edits := 2,
      shown := [] }
  else if data = "back_to_menu" then
    { session := none, calls := [], buttons := mainMenuButtons, edits := 1,
      shown := [] }
  else
    { session := st, calls := [], buttons := [], edits := 0, shown := [] }

/- ### helper lemmas -/

theorem take_min_sub (l : List α) (s ps : Nat) :
    (l.drop s).take (min (s + ps) l.length - s) = (l.drop s).take ps := by
  rcases le_total (s + ps) l.length with h | h
  · rw [min_eq_left h]
    congr 1
    omega
  · rw [min_eq_right h]
    have hlen : (l.drop s).length = l.length - s := List.length_drop s l
    rw [List.take_of_length_le (by omega), List.take_of_length_le (by omega)]

theorem isPrefixOf_ex : ∀ {p s : List Char}, p.isPrefixOf s = true → ∃ t, s = p ++ t
  | [], s, _ => ⟨s, rfl⟩
  | _ :: _, [], h => by simp [List.isPrefixOf] at h
  | a :: as, b :: bs, h => by
    simp only [List.isPrefixOf, Bool.and_eq_true, beq_iff_eq] at h
    obtain ⟨t, ht⟩ := isPrefixOf_ex h.2
    exact ⟨t, by simp [h.1, ht]⟩

theorem isPrefixOf_append_self : ∀ (p t : List Char), p.isPrefixOf (p ++ t) = true
  | [], _ => by simp [List.isPrefixOf]
  | a :: as, t => by simp [List.isPrefixOf, isPrefixOf_append_self as t]

theorem strEq_of_data {s t : String} (h : s.data = t.data) : s = t := by
  cases s
  cases t
  exact congrArg String.mk h

theorem strData_append (a b : String) : (a ++ b).data = a.data ++ b.data := by
  cases a
  cases b
  rfl

theorem strNe_of_head {s t : String} (h : s.data.head? ≠ t.data.head?) : s ≠ t :=
  fun e => h (by rw [e])

theorem strStarts_decomp {pre s : String} (h : strStarts pre s = true) :
    s = pre ++ strDrop s pre.data.length := by
  obtain ⟨t, ht⟩ := isPrefixOf_ex h
  apply strEq_of_data
  rw [strData_append]
  show s.data = pre.data ++ s.data.drop pre.data.length
  rw [ht, List.drop_left]

theorem strAppend_left_cancel {p a b : String} (h : p ++ a = p ++ b) : a = b := by
  apply strEq_of_data
  have hd : p.data ++ a.data = p.data ++ b.data := by
    rw [← strData_append, ← strData_append, h]
  exact List.append_cancel_left hd

theorem confirmTok_head (x : String) :
    ("confirm_deactivate_" ++ x).data.head? = some 'c' := by
  rw [strData_append]
  rfl

theorem deactTok_head (x : String) :
    ("deactivate_" ++ x).data.head? = some 'd' := by
  rw [strData_append]
  rfl

theorem pageTok_head (x : String) :
    ("users_page_" ++ x).data.head? = some 'u' := by
  rw [strData_append]
  rfl

theorem mem_ite_singleton {c : Prop} [Decidable c] {x b : α}
    (h : b ∈ (if c then [x] else [])) : b = x := by
  split at h
  · simpa using h
  · simp at h

theorem selectionButtons_mem {users : List Account} {page : Nat} {b : String}
    (hb : b ∈ selectionButtons users page) :
    (∃ name, b = "deactivate_" ++ name) ∨
      (∃ p : Nat, b = "users_page_" ++ toString p) ∨
      b = "back_to_menu" := by
  simp only [selectionButtons, List.mem_append, List.mem_map,
    List.mem_singleton] at hb
  rcases hb with ((⟨u, _, rfl⟩ | h) | h) | rfl
  · exact Or.inl ⟨u.name, rfl⟩
  · exact Or.inr (Or.inl ⟨page - 1, mem_ite_singleton h⟩)
  · exact Or.inr (Or.inl ⟨page + 1, mem_ite_singleton h⟩)
  · exact Or.inr (Or.inr rfl)

theorem deactivateMenuStep_cases (dir : List Account) (st : Option SessState) :
    deactivateMenuStep dir st =
        { session := st, calls := [RemoteCall.getUsersReq 0 100],
          buttons := ["back_to_menu"], edits := 2, shown := [] } ∨
      deactivateMenuStep dir st =
        { session :=
            some (.deactList (activeUsersFilter (fetchUsers dir ⟨0, 100⟩)) 0),
          calls := [RemoteCall.getUsersReq 0 100],
          buttons := selectionButtons (activeUsersFilter (fetchUsers dir ⟨0, 100⟩)) 0,
          edits := 2, shown := activeUsersFilter (fetchUsers dir ⟨0, 100⟩) } := by
  by_cases hA : (activeUsersFilter (fetchUsers dir ⟨0, 100⟩)).isEmpty <;>
    simp [deactivateMenuStep, hA]

theorem deactivateMenuStep_buttons (dir : List Account) (st : Option SessState)
    (b : String) (hb : b ∈ (deactivateMenuStep dir st).buttons) :
    b = "back_to_menu" ∨ ∃ users, b ∈ selectionButtons users 0 := by
  rcases deactivateMenuStep_cases dir st with h | h <;> rw [h] at hb
  · simp at hb
    exact Or.inl hb
  · exact Or.inr ⟨_, hb⟩

theorem handleCallback_calls (dir : List Account) (data : String)
    (st : Option SessState) :
    (handleCallback dir data st).calls = [] ∨
      (handleCallback dir data st).calls = [RemoteCall.getUsersReq 0 100] ∨
      ((handleCallback dir data st).calls =
          [RemoteCall.deactivateReq ⟨strDrop data 19, false⟩] ∧
        strStarts "confirm_deactivate_" data = true) := by
  unfold handleCallback
  by_cases h1 : data = "show_my_info"
  · rw [if_pos h1]
    exact Or.inl rfl
  rw [if_neg h1]
  by_cases h2 : data = "search_users"
  · rw [if_pos h2]
    exact Or.inl rfl
  rw [if_neg h2]
  by_cases h3 : data = "get_users"
  · rw [if_pos h3]
    exact Or.inr (Or.inl rfl)
  rw [if_neg h3, if_neg h2]
  by_cases h4 : data = "deactivate_menu"
  · rw [if_pos h4]
    rcases deactivateMenuStep_cases dir st with h | h <;> rw [h] <;>
      exact Or.inr (Or.inl rfl)
  rw [if_neg h4]
  by_cases h5 : strStarts "users_page_" data = true
  · rw [if_pos h5]
    rcases st with _ | s
    · exact Or.inl rfl
    rcases s with _ | ⟨users, page⟩
    · exact Or.inl rfl
    rcases hp : parseIntJS (strDrop data 11) with _ | p <;> exact Or.inl rfl
  rw [if_neg h5]
  by_cases h6 : strStarts "deactivate_" data = true
  · rw [if_pos h6]
    exact Or.inl rfl
  rw [if_neg h6]
  by_cases h7 : strStarts "confirm_deactivate_" data = true
  · rw [if_pos h7]
    exact Or.inr (Or.inr ⟨rfl, h7⟩)
  rw [if_neg h7]
  by_cases h8 : data = "back_to_menu"
  · rw [if_pos h8]
    exact Or.inl rfl
  · rw [if_neg h8]
    exact Or.inl rfl

theorem handleCallback_buttons (dir : List Account) (data : String)
    (st : Option SessState) (b : String)
    (hb : b ∈ (handleCallback dir data st).buttons) :
    b = "back_to_menu" ∨ b = "get_users" ∨ b = "search_users" ∨
      b = "deactivate_menu" ∨ b = "show_my_info" ∨
      (∃ name, b = "deactivate_" ++ name) ∨
      (∃ p : Nat, b = "users_page_" ++ toString p) ∨
      (b = "confirm_deactivate_" ++ strDrop data 11 ∧
        strStarts "deactivate_" data = true) := by
  have fromSelection : ∀ users page, b ∈ selectionButtons users page →
      b = "back_to_menu" ∨ b = "get_users" ∨ b = "search_users" ∨
        b = "deactivate_menu" ∨ b = "show_my_info" ∨
        (∃ name, b = "deactivate_" ++ name) ∨
        (∃ p : Nat, b = "users_page_" ++ toString p) ∨
        (b = "confirm_deactivate_" ++ strDrop data 11 ∧
          strStarts "deactivate_" data = true) := by
    intro users page hmem
    rcases selectionButtons_mem hmem with h | h | h
    · exact Or.inr (Or.inr (Or.inr (Or.inr (Or.inr (Or.inl h)))))
    · exact Or.inr (Or.inr (Or.inr (Or.inr (Or.inr (Or.inr (Or.inl h))))))
    · exact Or.inl h
  unfold handleCallback at hb
  by_cases h1 : data = "show_my_info"
  · rw [if_pos h1] at hb
    simp at hb
    exact Or.inl hb
  rw [if_neg h1] at hb
  by_cases h2 : data = "search_users"
  · rw [if_pos h2] at hb
    simp at hb
    exact Or.inl hb
  rw [if_neg h2] at hb
  by_cases h3 : data = "get_users"
  · rw [if_pos h3] at hb
    simp at hb
    exact Or.inl hb
  rw [if_neg h3, if_neg h2] at hb
  by_cases h4 : data = "deactivate_menu"
  · rw [if_pos h4] at hb
    rcases deactivateMenuStep_buttons dir st b hb with h | ⟨users, h⟩
    · exact Or.inl h
    · exact fromSelection users 0 h
  rw [if_neg h4] at hb
  by_cases h5 : strStarts "users_page_" data = true
  · rw [if_pos h5] at hb
    rcases st with _ | s
    · simp at hb
    rcases s with _ | ⟨users, page⟩
    · simp at hb
    rcases hp : parseIntJS (strDrop data 11) with _ | p <;>
      simp only [hp] at hb
    · simp at hb
      exact Or.inl hb
    · exact fromSelection users p hb
  rw [if_neg h5] at hb
  by_cases h6 : strStarts "deactivate_" data = true
  · rw [if_pos h6] at hb
    simp only [List.mem_cons, List.mem_singleton, List.not_mem_nil,
      or_false] at hb
    rcases hb with rfl | rfl
    · exact Or.inr (Or.inr (Or.inr (Or.inr (Or.inr (Or.inr (Or.inr ⟨rfl, h6⟩))))))
    · exact Or.inr (Or.inr (Or.inr (Or.inl rfl)))
  rw [if_neg h6] at hb
  by_cases h7 : strStarts "confirm_deactivate_" data = true
  · rw [if_pos h7] at hb
    simp only [List.mem_cons, List.mem_singleton, List.not_mem_nil,
      or_false] at hb
    rcases hb with rfl | rfl
    · exact Or.inr (Or.inr (Or.inr (Or.inl rfl)))
    · exact Or.inl rfl
  rw [if_neg h7] at hb
  by_cases h8 : data = "back_to_menu"
  · rw [if_pos h8] at hb
    simp only [mainMenuButtons, List.mem_cons, List.mem_singleton,
      List.not_mem_nil, or_false] at hb
    rcases hb with rfl | rfl | rfl | rfl
    · exact Or.inr (Or.inl rfl)
    · exact Or.inr (Or.inr (Or.inl rfl))
    · exact Or.inr (Or.inr (Or.inr (Or.inl rfl)))
    · exact Or.inr (Or.inr (Or.inr (Or.inr (Or.inl rfl))))
  · rw [if_neg h8] at hb
    simp at hb

/- ### Claim theorems: authorization, search, pagination -/

/-- C1: for every allow-list in which both the id set and the handle set
are empty, `isAuthorized` returns false for every actor, including actors
with no handle (fail closed). -/
theorem isAuthorized_fail_closed (allow : AllowList) (user : TgUser)
    (hids : allow.ids = []) (hhandles : allow.handles = []) :
    isAuthorized allow user = false := by
  simp [isAuthorized, hids, hhandles, List.isEmpty]

/-- Witness for C1: the empty allow-list denies an actor with no handle. -/
theorem isAuthorized_fail_closed_witness :
    isAuthorized ⟨[], []⟩ ⟨42, none⟩ = false :=
  isAuthorized_fail_closed ⟨[], []⟩ ⟨42, none⟩ rfl rfl

/-- C4: for every non-empty allow-list, an actor is authorized iff their
numeric id is listed, or they have a handle whose lower-cased form is
listed (so a listed id authorizes regardless of handle, and handle
matching is case-insensitive against the lower-cased configured set). -/
theorem isAuthorized_iff (allow : AllowList) (user : TgUser)
    (hne : allow.ids ≠ [] ∨ allow.handles ≠ []) :
    isAuthorized allow user = true ↔
      user.id ∈ allow.ids ∨
        ∃ h, user.username = some h ∧ strToLower h ∈ allow.handles := by
  have hcond : (allow.ids.isEmpty && allow.handles.isEmpty) = false := by
    rcases hne with h | h <;> simp [List.isEmpty_iff, h]
  rw [isAuthorized, if_neg (by simp [hcond])]
  rcases huser : user.username with _ | h
  · simp [huser]
  · by_cases hid : user.id ∈ allow.ids <;> simp [hid, huser]

/-- Witness for C4: allow-list with lower-cased handle `alice` authorizes
the actor whose handle is `ALICE` (case-insensitive match, id unlisted). -/
theorem isAuthorized_iff_witness :
    (["alice"] ≠ ([] : List String)) ∧
      (isAuthorized ⟨[], ["alice"]⟩ ⟨7, some "ALICE"⟩ = true ↔
        (7 : Int) ∈ ([] : List Int) ∨
          ∃ h, (some "ALICE" : Option String) = some h ∧
            strToLower h ∈ ["alice"]) :=
  ⟨by decide, isAuthorized_iff ⟨[], ["alice"]⟩ ⟨7, some "ALICE"⟩ (Or.inr (by decide))⟩

/-- C5: `searchUsers` keeps an account in its filtered result iff the
account's id contains the term case-insensitively, or its display name
(when present) contains the term case-insensitively, or its id equals the
term exactly. -/
theorem searchFilter_mem (allUsers : List Account) (searchTerm : String)
    (a : Account) :
    a ∈ searchFilter allUsers searchTerm ↔
      a ∈ allUsers ∧
        (strIncludes (strToLower a.name) (strToLower searchTerm) = true ∨
          (∃ d, a.displayname = some d ∧
            strIncludes (strToLower d) (strToLower searchTerm) = true) ∨
          a.name = searchTerm) := by
  rw [searchFilter, List.mem_filter]
  rcases hd : a.displayname with _ | d <;>
    simp [searchMatches, hd, or_assoc]

/-- C6: the pagination of the selection keyboard takes exactly the slice
`items.slice(page*pageSize, min (page*pageSize + pageSize) items.length)`
= `(items.drop (page*pageSize)).take pageSize`, so a page holds at most
`pageSize` items; a Previous control exists iff `page > 0` and a Next
control exists iff the slice's end index is below the total length. -/
theorem createUserSelectionKeyboard_spec (users : List Account)
    (page usersPerPage : Nat) :
    (createUserSelectionKeyboard users page usersPerPage).pageUsers =
        (users.drop (page * usersPerPage)).take usersPerPage ∧
      (createUserSelectionKeyboard users page usersPerPage).pageUsers.length ≤
        usersPerPage ∧
      ((createUserSelectionKeyboard users page usersPerPage).hasPrev = true ↔
        0 < page) ∧
      ((createUserSelectionKeyboard users page usersPerPage).hasNext = true ↔
        page * usersPerPage + usersPerPage < users.length) := by
  refine ⟨?_, ?_, ?_, ?_⟩
  · rw [createUserSelectionKeyboard]
    exact take_min_sub users (page * usersPerPage) usersPerPage
  · rw [createUserSelectionKeyboard]
    simpa [jsSlice] using Nat.le_trans (List.length_take_le _ _) (by omega)
  · simp [createUserSelectionKeyboard]
  · simp only [createUserSelectionKeyboard, decide_eq_true_eq]
    omega

/- ### Claim theorems: controller behavior -/

/-- An active (not deactivated) admin account, for concrete evaluation. -/
def adminA : Account := ⟨"@root:x", none, false, true⟩

/-- An active, non-admin account, for concrete evaluation. -/
def bobA : Account := ⟨"@bob:x", none, false, false⟩

/-- Counterexample to C2: in src/bot-secure.js the `deactivate_menu`
listing is filtered only by `!user.deactivated`, so an active admin
account IS offered as a deactivation target (its select button appears in
the rendered keyboard), contradicting "admins are never offered". -/
theorem admin_offered_for_deactivation :
    ("deactivate_" ++ adminA.name) ∈
        (handleCallback [adminA] "deactivate_menu" none).buttons ∧
      adminA.admin = true := by decide

/-- C2 as amended: the part_000/part_001 `deactivate_menu` filter keeps
exactly the accounts with `deactivated = false` and `admin = false`
(subset of the input, both flags false in the output, every such input
account kept), while the src/bot-secure.js filter keeps exactly the
accounts with `deactivated = false`, admins included. -/
theorem deactivation_filters_spec (users : List Account) (a : Account) :
    (a ∈ deactivatableUsersFilter users ↔
        a ∈ users ∧ a.deactivated = false ∧ a.admin = false) ∧
      (a ∈ activeUsersFilter users ↔ a ∈ users ∧ a.deactivated = false) := by
  constructor <;>
    simp [deactivatableUsersFilter, activeUsersFilter, List.mem_filter,
      and_assoc]

/-- C3: the remote deactivation request is issued only by the
`confirm_deactivate_<id>` event; a `deactivate_<id>` select event never
issues it; and a `confirm_deactivate_<id>` button is only ever offered by
the confirmation prompt, i.e. by the step handling the select event
`deactivate_<id>` — so no path deactivates without passing through the
confirmation prompt. -/
theorem deactivation_requires_confirmation (dir : List Account) (data : String)
    (st : Option SessState) (r : DeactivateRequest) (id : String) :
    (RemoteCall.deactivateReq r ∈ (handleCallback dir data st).calls →
        data = "confirm_deactivate_" ++ r.targetId) ∧
      RemoteCall.deactivateReq r ∉
        (handleCallback dir ("deactivate_" ++ id) st).calls ∧
      ("confirm_deactivate_" ++ id ∈ (handleCallback dir data st).buttons →
        data = "deactivate_" ++ id) := by
  have main : ∀ data' : String,
      RemoteCall.deactivateReq r ∈ (handleCallback dir data' st).calls →
        data' = "confirm_deactivate_" ++ r.targetId := by
    intro data' hmem
    rcases handleCallback_calls dir data' st with h | h | ⟨h, hpre⟩ <;>
      rw [h] at hmem
    · simp at hmem
    · simp at hmem
    · simp only [List.mem_singleton] at hmem
      injection hmem with hr
      have hd := strStarts_decomp hpre
      have hlen : ("confirm_deactivate_" : String).data.length = 19 := rfl
      rw [hlen] at hd
      rw [hr]
      exact hd
  refine ⟨main data, ?_, ?_⟩
  · intro hmem
    have hcontr := main _ hmem
    exact absurd hcontr
      (strNe_of_head (by rw [deactTok_head, confirmTok_head]; decide))
  · intro hbmem
    rcases handleCallback_buttons dir data st _ hbmem with
      h | h | h | h | h | ⟨n, h⟩ | ⟨q, h⟩ | ⟨h, hpre⟩
    · exact absurd h (strNe_of_head (by rw [confirmTok_head]; decide))
    · exact absurd h (strNe_of_head (by rw [confirmTok_head]; decide))
    · exact absurd h (strNe_of_head (by rw [confirmTok_head]; decide))
    · exact absurd h (strNe_of_head (by rw [confirmTok_head]; decide))
    · exact absurd h (strNe_of_head (by rw [confirmTok_head]; decide))
    · exact absurd h
        (strNe_of_head (by rw [confirmTok_head, deactTok_head]; decide))
    · exact absurd h
        (strNe_of_head (by rw [confirmTok_head, pageTok_head]; decide))
    · have hid : id = strDrop data 11 := strAppend_left_cancel h
      have hd := strStarts_decomp hpre
      have hlen : ("deactivate_" : String).data.length = 11 := rfl
      rw [hlen] at hd
      rw [hd, hid]

/-- Witness for C3: at the concrete confirm event whose payload is
`confirm_deactivate_@bob:x`, the deactivation call is issued and the
payload decomposes as required. -/
theorem deactivation_requires_confirmation_witness :
    ("confirm_deactivate_@bob:x" : String) =
      "confirm_deactivate_" ++ "@bob:x" :=
  (deactivation_requires_confirmation [] "confirm_deactivate_@bob:x" none
      ⟨"@bob:x", false⟩ "@bob:x").1 (by decide)

theorem handleCallback_deactivate_menu (dir : List Account)
    (st : Option SessState) :
    handleCallback dir "deactivate_menu" st = deactivateMenuStep dir st := by
  unfold handleCallback
  rw [if_neg (by decide), if_neg (by decide), if_neg (by decide),
    if_neg (by decide), if_pos rfl]

theorem deactivateMenuStep_spec (dir : List Account) (st : Option SessState) :
    (deactivateMenuStep dir st).calls = [RemoteCall.getUsersReq 0 100] ∧
      (activeUsersFilter (fetchUsers dir ⟨0, 100⟩) ≠ [] →
        deactivateMenuStep dir st =
          { session :=
              some (.deactList (activeUsersFilter (fetchUsers dir ⟨0, 100⟩)) 0),
            calls := [RemoteCall.getUsersReq 0 100],
            buttons :=
              selectionButtons (activeUsersFilter (fetchUsers dir ⟨0, 100⟩)) 0,
            edits := 2,
            shown := activeUsersFilter (fetchUsers dir ⟨0, 100⟩) }) ∧
      (activeUsersFilter (fetchUsers dir ⟨0, 100⟩) = [] →
        (deactivateMenuStep dir st).session = st) := by
  by_cases hA : activeUsersFilter (fetchUsers dir ⟨0, 100⟩) = [] <;>
    simp [deactivateMenuStep, List.isEmpty_iff, hA]

/-- Counterexample to C7: the Cancel button of the confirmation prompt
carries the payload `deactivate_menu` (src/bot-secure.js:498), so pressing
it from a session parked at page 1 issues a fresh remote `getUsers` fetch
(the claim says no remote call) and re-renders the listing at page 0, not
at the prior page. -/
theorem cancel_refetches_and_resets_page :
    (handleCallback [bobA] "deactivate_menu"
        (some (.deactList [bobA] 1))).calls = [RemoteCall.getUsersReq 0 100] ∧
      (handleCallback [bobA] "deactivate_menu"
          (some (.deactList [bobA] 1))).session =
        some (.deactList [bobA] 0) ∧
      some (SessState.deactList [bobA] 0) ≠
        some (.deactList [bobA] 1) := by decide

/-- C7 as amended: pressing Cancel re-runs the whole `deactivate_menu`
flow: it issues exactly one remote call — the `getUsers` fetch, never a
deactivation request — and, when the refreshed filter output is
non-empty, replaces the session with the fresh candidate list at page 0
(the prior page is not preserved; no pending target exists in the session
to clear, the target id lives only in the buttons).  When the filter
output is empty the session is left untouched. -/
theorem cancel_button_behavior (dir : List Account) (st : Option SessState) :
    (handleCallback dir "deactivate_menu" st).calls =
        [RemoteCall.getUsersReq 0 100] ∧
      (∀ r : DeactivateRequest,
        RemoteCall.deactivateReq r ∉
          (handleCallback dir "deactivate_menu" st).calls) ∧
      (activeUsersFilter (fetchUsers dir ⟨0, 100⟩) ≠ [] →
        (handleCallback dir "deactivate_menu" st).session =
          some (.deactList (activeUsersFilter (fetchUsers dir ⟨0, 100⟩)) 0)) ∧
      (activeUsersFilter (fetchUsers dir ⟨0, 100⟩) = [] →
        (handleCallback dir "deactivate_menu" st).session = st) := by
  obtain ⟨hc, hne, hemp⟩ := deactivateMenuStep_spec dir st
  rw [handleCallback_deactivate_menu]
  refine ⟨hc, ?_, ?_, hemp⟩
  · intro r hmem
    rw [hc] at hmem
    simp at hmem
  · intro h
    rw [hne h]

/-- Witness for C7 (amended): with one active account in the directory,
Cancel lands on the refreshed listing at page 0. -/
theorem cancel_button_behavior_witness :
    (handleCallback [bobA] "deactivate_menu" none).session =
      some (.deactList (activeUsersFilter (fetchUsers [bobA] ⟨0, 100⟩)) 0) :=
  (cancel_button_behavior [bobA] none).2.2.1 (by decide)

/-- Counterexample to C8: a page-navigation button pressed after the
session was cleared is dropped with no rendered notice at all — zero
message edits, no buttons, no calls — not the claimed no-op-with-notice
(only the generic textless callback acknowledgement happens). -/
theorem stale_page_silent :
    (handleCallback [] "users_page_1" none).edits = 0 ∧
      (handleCallback [] "users_page_1" none).buttons = [] ∧
      (handleCallback [] "users_page_1" none).session = none ∧
      (handleCallback [] "users_page_1" none).calls = [] := by decide

/-- C8 as amended: a `users_page_<p>` event against a session that holds
no user list (cleared, or in search-input mode) is a silent no-op: the
handler falls through without crashing, leaving the session unchanged,
issuing no remote call and rendering nothing; the operator gets only the
generic textless button acknowledgement. -/
theorem stale_page_noop (dir : List Account) (p : Nat) (st : Option SessState)
    (h : st = none ∨ st = some .waitingForSearch) :
    handleCallback dir ("users_page_" ++ toString p) st =
      { session := st, calls := [], buttons := [], edits := 0, shown := [] } := by
  have hu : strStarts "users_page_" ("users_page_" ++ toString p) = true := by
    rw [strStarts, strData_append]
    exact isPrefixOf_append_self _ _
  have hne : ∀ t : String, t.data.head? ≠ some 'u' →
      ("users_page_" ++ toString p : String) ≠ t := by
    intro t ht
    exact strNe_of_head (by rw [pageTok_head]; exact fun e => ht e.symm)
  unfold handleCallback
  rw [if_neg (hne _ (by decide)), if_neg (hne _ (by decide)),
    if_neg (hne _ (by decide)), if_neg (hne _ (by decide)),
    if_neg (hne _ (by decide)), if_pos hu]
  rcases h with rfl | rfl <;> rfl

/-- Witness for C8 (amended): the cleared-session instance. -/
theorem stale_page_noop_witness :
    handleCallback [] ("users_page_" ++ toString 1) none =
      { session := none, calls := [], buttons := [], edits := 0, shown := [] } :=
  stale_page_noop [] 1 none (Or.inl rfl)

/-- C9: every deactivation request the controller ever issues carries
`erase = false` — deactivation through the bot never requests erasure. -/
theorem deactivate_request_never_erases (dir : List Account) (data : String)
    (st : Option SessState) (r : DeactivateRequest)
    (h : RemoteCall.deactivateReq r ∈ (handleCallback dir data st).calls) :
    r.erase = false := by
  rcases handleCallback_calls dir data st with hc | hc | ⟨hc, _⟩ <;>
    rw [hc] at h
  · simp at h
  · simp at h
  · simp only [List.mem_singleton] at h
    injection h with h2
    rw [h2]

/-- Witness for C9: the concrete confirm event issues the request with
`erase = false`. -/
theorem deactivate_request_never_erases_witness :
    (⟨"@bob:x", false⟩ : DeactivateRequest).erase = false :=
  deactivate_request_never_erases [] "confirm_deactivate_@bob:x" none
    ⟨"@bob:x", false⟩ (by decide)

theorem handleCallback_get_users (dir : List Account) (st : Option SessState) :
    handleCallback dir "get_users" st =
      { session := st, calls := [RemoteCall.getUsersReq 0 100],
        buttons := ["back_to_menu"], edits := 2,
        shown := fetchUsers dir ⟨0, 100⟩ } := by
  unfold handleCallback
  rw [if_neg (by decide), if_neg (by decide), if_pos rfl]

/-- C10: the list-users display and the deactivation listing are both fed
by one `getUsers()` fetch with the default window `{from: 0, limit: 100}`
— so on a directory of more than 100 accounts they operate on exactly the
first 100 (replacing the directory by its first 100 accounts changes
nothing) — while `searchUsers` performs its own fetch with
`{from: 0, limit: 1000}` and is insensitive to accounts beyond the first
1000. -/
theorem listing_fetch_window (dir : List Account) (st : Option SessState)
    (term : String) (fromIdx limit : Nat) :
    (handleCallback dir "get_users" st).calls =
        [RemoteCall.getUsersReq 0 100] ∧
      (handleCallback dir "get_users" st).shown = dir.take 100 ∧
      (handleCallback dir "deactivate_menu" st).calls =
        [RemoteCall.getUsersReq 0 100] ∧
      handleCallback dir "deactivate_menu" st =
        handleCallback (dir.take 100) "deactivate_menu" st ∧
      (searchUsers dir term fromIdx limit).calls =
        [RemoteCall.getUsersReq 0 1000] ∧
      searchUsers dir term fromIdx limit =
        searchUsers (dir.take 1000) term fromIdx limit := by
  have hf100 : fetchUsers (dir.take 100) ⟨0, 100⟩ = fetchUsers dir ⟨0, 100⟩ := by
    simp [fetchUsers, List.take_take]
  have hf1000 : fetchUsers (dir.take 1000) ⟨0, 1000⟩ =
      fetchUsers dir ⟨0, 1000⟩ := by
    simp [fetchUsers, List.take_take]
  refine ⟨?_, ?_, ?_, ?_, rfl, ?_⟩
  · rw [handleCallback_get_users]
  · rw [handleCallback_get_users]
    simp [fetchUsers]
  · rw [handleCallback_deactivate_menu]
    exact (deactivateMenuStep_spec dir st).1
  · rw [handleCallback_deactivate_menu, handleCallback_deactivate_menu]
    unfold deactivateMenuStep
    rw [hf100]
  · unfold searchUsers
    rw [hf1000]

end SynapseBot
